import Mathlib

/-!
Verification of the SCANNER-API field normalization, confidence-scoring and
validation engine (`backend/app/utils/*.py`, `backend/app/pipelines/*.py`).

Python strings are modelled by Lean `String`, Python `float` bounding-box
coordinates by `ℚ` (every IEEE float is a rational) and confidence arithmetic
involving `** 0.5` by `ℝ`.  Python `int`/`str` helpers (`int(...)`,
`str.strip`, `str.replace`, `datetime.strptime`) are embedded explicitly
below, restricted to ASCII text (Python also accepts non-ASCII digits and
whitespace; no claim depends on those).
-/

namespace Scanner

/-- ASCII whitespace, as stripped by Python `str.strip()` / `int(...)`. -/
def isPyWs (c : Char) : Bool :=
  c = ' ' ∨ c = '\t' ∨ c = '\n' ∨ c = '\r' ∨ c = '\x0b' ∨ c = '\x0c'

/-- Drop leading and trailing ASCII whitespace from a character list. -/
def stripWsList (cs : List Char) : List Char :=
  (cs.dropWhile isPyWs).reverse.dropWhile isPyWs |>.reverse

/-- Python `str.strip()` (ASCII whitespace). -/
def pyStrip (s : String) : String :=
  ⟨stripWsList s.data⟩

/-- Decimal value of an ASCII digit list (most significant first). -/
def digitsVal (cs : List Char) : Nat :=
  cs.foldl (fun acc c => 10 * acc + (c.toNat - '0'.toNat)) 0

/-- Core of Python `int(s)` on a character list: optional surrounding
whitespace, optional single sign, then a nonempty run of ASCII digits
(single underscores between digits are also accepted by Python, as are
non-ASCII digits; neither occurs in the inputs considered here and
underscore-free ASCII input is modelled exactly).  Returns `none` where
Python raises `ValueError`. -/
def pyIntList (s : List Char) : Option Int :=
  match stripWsList s with
  | [] => none
  | c :: rest =>
    if c = '+' then
      if rest ≠ [] ∧ rest.all Char.isDigit then some ((digitsVal rest : Nat) : Int)
      else none
    else if c = '-' then
      if rest ≠ [] ∧ rest.all Char.isDigit then some (-((digitsVal rest : Nat) : Int))
      else none
    else
      if (c :: rest).all Char.isDigit then some ((digitsVal (c :: rest) : Nat) : Int)
      else none

/-- Python `int(s)` for a string argument. -/
def pyInt (s : String) : Option Int :=
  pyIntList s.data

/-- The MRZ character-value lookup string of `validate_mrz_checksum`
(`char_values = '0123456789ABCDEFGHIJKLMNOPQRSTUVWXYZ<'`). -/
def charValues : List Char :=
  "0123456789ABCDEFGHIJKLMNOPQRSTUVWXYZ<".data

/-- The cyclic MRZ weights (`weights = [7, 3, 1]`). -/
def weights : List Nat := [7, 3, 1]

/-- The summation loop of `validate_mrz_checksum`: characters found in
`char_values` contribute `char_values.index(char) * weights[i % 3]`,
other characters are skipped.  (`backend/app/utils/validation.py`) -/
def checksumTotal (data : List Char) : Nat :=
  (data.enum.map (fun p =>
    if p.2 ∈ charValues then
      (charValues.indexOf p.2) * (weights.getD (p.1 % 3) 0)
    else 0)).sum

/-- `validate_mrz_checksum(data, check_digit)` from
`backend/app/utils/validation.py`: an empty or `"<"` stored check digit
passes immediately; otherwise the weighted total mod 10 is compared with
`int(check_digit)`, and an unparseable check digit returns `False`. -/
def validate_mrz_checksum (data : String) (check_digit : String) : Bool :=
  if check_digit.isEmpty ∨ check_digit = "<" then true
  else
    let calculated : Nat := checksumTotal data.data % 10
    match pyInt check_digit with
    | some n => (calculated : Int) = n
    | none => false

/-- Modelled from the spec: the ICAO 9303 character value, `0`–`9` ↦ 0–9,
`A`–`Z` ↦ 10–35 and the filler `<` ↦ 0 (spec §4.3); used only to compare
the code's checksum against the specified one. -/
def specCharValue (c : Char) : Nat :=
  if c = '<' then 0
  else if c.isDigit then c.toNat - '0'.toNat
  else if 'A' ≤ c ∧ c ≤ 'Z' then c.toNat - 'A'.toNat + 10
  else 0

/-- Modelled from the spec: the ICAO 9303 check digit
`(sum of value*weight) mod 10` with cyclic weights `[7,3,1]` (spec §4.3). -/
def specCheckDigit (data : List Char) : Nat :=
  (data.enum.map (fun p => specCharValue p.2 * (weights.getD (p.1 % 3) 0))).sum % 10

/-- Zero-pad the decimal representation of a natural number to width `w`. -/
def natPad (w : Nat) (n : Nat) : String :=
  let s := toString n
  ⟨List.replicate (w - s.length) '0'⟩ ++ s

/-- Python `f"{n:0wd}"` for an integer `n`: the sign occupies one column of
the field width. -/
def intFmt (w : Nat) (n : Int) : String :=
  if n < 0 then "-" ++ natPad (w - 1) n.natAbs else natPad w n.toNat

/-- Python slice `s[a:b]` (for `0 ≤ a ≤ b`). -/
def pySlice (s : String) (a b : Nat) : String :=
  ⟨(s.data.drop a).take (b - a)⟩

/-- `_parse_mrz_date(mrz_date)` from `backend/app/pipelines/passport.py`:
reject empty input and input whose length is not 6, then convert the three
2-character slices with Python `int` (a `ValueError` in any conversion is
caught and yields `None`), resolve the century with the `year > 50` rule and
format as zero-padded `YYYY-MM-DD`. -/
def parse_mrz_date (mrz_date : String) : Option String :=
  if mrz_date.isEmpty ∨ mrz_date.length ≠ 6 then none
  else
    match pyInt (pySlice mrz_date 0 2), pyInt (pySlice mrz_date 2 4),
        pyInt (pySlice mrz_date 4 6) with
    | some year, some month, some day =>
      let full_year : Int := if year > 50 then 1900 + year else 2000 + year
      some (intFmt 4 full_year ++ "-" ++ intFmt 2 month ++ "-" ++ intFmt 2 day)
    | _, _, _ => none

/-- Python `s.replace(a, b)` for one-character `a`, `b`. -/
def repl (a b : Char) (s : String) : String :=
  ⟨s.data.map fun c => if c = a then b else c⟩

/-- Python `s.replace(a, '')` for a one-character `a`. -/
def removeChar (a : Char) (s : String) : String :=
  ⟨s.data.filter fun c => c != a⟩

/-- The cleaning prefix of `normalize_emirates_id`
(`backend/app/utils/normalization.py`): OCR confusions `O`,`o` ↦ `0` and
`I`,`l` ↦ `1`, spaces removed, underscores mapped to dashes, applied in the
source's order. -/
def eidClean (s : String) : String :=
  repl '_' '-' (removeChar ' ' (repl 'l' '1' (repl 'I' '1' (repl 'o' '0' (repl 'O' '0' s)))))

/-- The dash re-insertion of `normalize_emirates_id`:
`f"{d[:3]}-{d[3:7]}-{d[7:14]}-{d[14]}"`. -/
def eidDashed (ds : List Char) : String :=
  ⟨ds.take 3⟩ ++ "-" ++ ⟨(ds.drop 3).take 4⟩ ++ "-" ++ ⟨(ds.drop 7).take 7⟩ ++ "-" ++
    ⟨(ds.drop 14).take 1⟩

/-- `normalize_emirates_id(id_number)` from
`backend/app/utils/normalization.py`: empty input yields `""`; otherwise the
input is cleaned, all non-digits are stripped, and if exactly 15 digits
remain they are returned in the `3-4-7-1` dashed grouping, else the cleaned
string is returned as-is. -/
def normalize_emirates_id (id_number : String) : String :=
  if id_number = "" then ""
  else if ((eidClean id_number).data.filter Char.isDigit).length = 15 then
    eidDashed ((eidClean id_number).data.filter Char.isDigit)
  else eidClean id_number

/-! ### Python `datetime.strptime`

`_strptime` compiles a format into a regex (`%Y` ↦ `\d\d\d\d`,
`%m` ↦ `1[0-2]|0[1-9]|[1-9]`, `%d` ↦ `3[01]|[12]\d|0[1-9]|[1-9]`,
`%b`/`%B` ↦ the English month-name alternation, whitespace ↦ `\s+`, other
characters literal), requires the match to cover the whole string
("unconverted data remains" otherwise), and then builds a `datetime`,
raising `ValueError` for a calendar-invalid combination.  The alternation
functions below return every parse in regex preference order and the
callers search them with full backtracking; ASCII digits only. -/

/-- Parses of `%d` (`3[01]|[12]\d|0[1-9]|[1-9]`) in regex preference
order, each with the remaining input. -/
def dayAlts : List Char → List (Nat × List Char)
  | c1 :: c2 :: r =>
    (if c1 = '3' ∧ (c2 = '0' ∨ c2 = '1') then [(30 + (c2.toNat - '0'.toNat), r)] else []) ++
    (if (c1 = '1' ∨ c1 = '2') ∧ c2.isDigit then
      [(10 * (c1.toNat - '0'.toNat) + (c2.toNat - '0'.toNat), r)] else []) ++
    (if c1 = '0' ∧ '1' ≤ c2 ∧ c2 ≤ '9' then [(c2.toNat - '0'.toNat, r)] else []) ++
    (if '1' ≤ c1 ∧ c1 ≤ '9' then [(c1.toNat - '0'.toNat, c2 :: r)] else [])
  | [c1] => if '1' ≤ c1 ∧ c1 ≤ '9' then [(c1.toNat - '0'.toNat, [])] else []
  | [] => []

/-- Parses of `%m` (`1[0-2]|0[1-9]|[1-9]`) in regex preference order. -/
def monthAlts : List Char → List (Nat × List Char)
  | c1 :: c2 :: r =>
    (if c1 = '1' ∧ (c2 = '0' ∨ c2 = '1' ∨ c2 = '2') then
      [(10 + (c2.toNat - '0'.toNat), r)] else []) ++
    (if c1 = '0' ∧ '1' ≤ c2 ∧ c2 ≤ '9' then [(c2.toNat - '0'.toNat, r)] else []) ++
    (if '1' ≤ c1 ∧ c1 ≤ '9' then [(c1.toNat - '0'.toNat, c2 :: r)] else [])
  | [c1] => if '1' ≤ c1 ∧ c1 ≤ '9' then [(c1.toNat - '0'.toNat, [])] else []
  | [] => []

/-- `%Y`: exactly four ASCII digits. -/
def year4 : List Char → Option (Nat × List Char)
  | a :: b :: c :: d :: r =>
    if a.isDigit ∧ b.isDigit ∧ c.isDigit ∧ d.isDigit then
      some (digitsVal [a, b, c, d], r)
    else none
  | _ => none

/-- `\s+` (the compilation of literal whitespace in a format). -/
def ws1 : List Char → Option (List Char)
  | c :: r => if isPyWs c then some (r.dropWhile isPyWs) else none
  | [] => none

/-- Gregorian leap year, as the `datetime` constructor uses it. -/
def isLeap (y : Nat) : Bool := y % 4 = 0 ∧ (y % 100 ≠ 0 ∨ y % 400 = 0)

def daysInMonth (y m : Nat) : Nat :=
  if m = 2 then (if isLeap y then 29 else 28)
  else if m = 4 ∨ m = 6 ∨ m = 9 ∨ m = 11 then 30
  else 31

/-- The `datetime(year, month, day)` constructor check. -/
def validDate (y m d : Nat) : Bool :=
  1 ≤ y ∧ y ≤ 9999 ∧ 1 ≤ m ∧ m ≤ 12 ∧ 1 ≤ d ∧ d ≤ daysInMonth y m

/-- `datetime.strptime(s, "%Y-%m-%d")` without the constructor check. -/
def strptimeYMD (s : String) : Option (Nat × Nat × Nat) :=
  match year4 s.data with
  | some (y, '-' :: r2) =>
    (monthAlts r2).findSome? fun p =>
      match p.2 with
      | '-' :: r4 =>
        (dayAlts r4).findSome? fun q =>
          if q.2 = [] then some (y, p.1, q.1) else none
      | _ => none
  | _ => none

/-- `datetime.strptime(s, "%d<sep>%m<sep>%Y")` without the constructor
check; `sep` is `/`, `-` or `.`. -/
def strptimeDMY (sep : Char) (s : String) : Option (Nat × Nat × Nat) :=
  (dayAlts s.data).findSome? fun p =>
    match p.2 with
    | c :: r2 =>
      if c = sep then
        (monthAlts r2).findSome? fun q =>
          match q.2 with
          | c2 :: r3 =>
            if c2 = sep then
              match year4 r3 with
              | some (y, []) => some (y, q.1, p.1)
              | _ => none
            else none
          | [] => none
      else none
    | [] => none

/-- English month-name tables of the C locale, lowercase. -/
def monthAbbrevs : List (List Char × Nat) :=
  [("jan".data, 1), ("feb".data, 2), ("mar".data, 3), ("apr".data, 4),
   ("may".data, 5), ("jun".data, 6), ("jul".data, 7), ("aug".data, 8),
   ("sep".data, 9), ("oct".data, 10), ("nov".data, 11), ("dec".data, 12)]

def monthFulls : List (List Char × Nat) :=
  [("january".data, 1), ("february".data, 2), ("march".data, 3),
   ("april".data, 4), ("may".data, 5), ("june".data, 6), ("july".data, 7),
   ("august".data, 8), ("september".data, 9), ("october".data, 10),
   ("november".data, 11), ("december".data, 12)]

/-- Case-insensitive match of one month name at the head of the input. -/
def matchName (cs : List Char) (pat : List Char × Nat) : Option (Nat × List Char) :=
  if (cs.take pat.1.length).map Char.toLower = pat.1 then
    some (pat.2, cs.drop pat.1.length)
  else none

/-- Parses of `%b`/`%B` (the month-name alternation, `IGNORECASE`). -/
def nameAlts (tbl : List (List Char × Nat)) (cs : List Char) : List (Nat × List Char) :=
  tbl.filterMap (matchName cs)

/-- `datetime.strptime(s, "%d %b %Y")` / `"%d %B %Y"` without the
constructor check. -/
def strptimeDNameY (tbl : List (List Char × Nat)) (s : String) :
    Option (Nat × Nat × Nat) :=
  (dayAlts s.data).findSome? fun p =>
    match ws1 p.2 with
    | some r2 =>
      (nameAlts tbl r2).findSome? fun q =>
        match ws1 q.2 with
        | some r3 =>
          match year4 r3 with
          | some (y, []) => some (y, q.1, p.1)
          | _ => none
        | none => none
    | none => none

/-- Attach the `datetime` constructor check: a regex match carrying a
calendar-invalid date raises `ValueError`, i.e. the format fails. -/
def checkedDate (r : Option (Nat × Nat × Nat)) : Option (Nat × Nat × Nat) :=
  r.bind fun t => if validDate t.1 t.2.1 t.2.2 then some t else none

/-- `datetime.strptime(s, "%Y-%m-%d")`. -/
def pyYMD (s : String) : Option (Nat × Nat × Nat) :=
  checkedDate (strptimeYMD s)

/-- `datetime` comparison `a <= b` restricted to dates (midnight times). -/
def dateLeB (a b : Nat × Nat × Nat) : Bool :=
  a.1 < b.1 ∨ (a.1 = b.1 ∧ (a.2.1 < b.2.1 ∨ (a.2.1 = b.2.1 ∧ a.2.2 ≤ b.2.2)))

/-- Structured form of the messages `validate_date_consistency` returns. -/
inductive DateErr where
  | orderViolation (expiry issue : String)
  | invalidFormat (offending : String)
deriving DecidableEq

/-- `validate_date_consistency(issue_date, expiry_date)` from
`backend/app/utils/validation.py`: skip (pass) when either argument is
missing/empty; otherwise parse both with `strptime("%Y-%m-%d")` — a
`ValueError` yields `(False, "Invalid date format: ...")` — and fail with
the order-violation message naming both dates when `expiry <= issue`. -/
def validate_date_consistency (issue_date expiry_date : String) :
    Bool × Option DateErr :=
  if issue_date = "" ∨ expiry_date = "" then (true, none)
  else
    match pyYMD issue_date with
    | none => (false, some (DateErr.invalidFormat issue_date))
    | some i =>
      match pyYMD expiry_date with
      | none => (false, some (DateErr.invalidFormat expiry_date))
      | some e =>
        if dateLeB e i then (false, some (DateErr.orderViolation expiry_date issue_date))
        else (true, none)

/-- Structured form of the warnings the pipelines accumulate via
`add_warning` (the code formats these as f-strings; the payloads here are
the interpolated values, with `lowConfidence` carrying the score already
rounded to 2 decimals by the `:.2f` format). -/
inductive Warning where
  | lowConfidence (score : ℝ) (field : String)
  | noText (field : String)
  | idValidation (msg : String)
  | dateValidation (err : Option DateErr)
  | sexValidation (msg : String)

/-- The date-consistency fragment of `_validate_fields` in
`backend/app/pipelines/emirates_id.py`: the check runs only when both
values are truthy, and a failed check appends one warning. -/
def dateCheckStep (issue expiry : String) (ws : List Warning) : List Warning :=
  if issue ≠ "" ∧ expiry ≠ "" then
    match validate_date_consistency issue expiry with
    | (true, _) => ws
    | (false, err) => ws ++ [Warning.dateValidation err]
  else ws

/-! ### The remaining normalizers (`backend/app/utils/normalization.py`) -/

/-- Python `str.upper()` (ASCII). -/
def pyUpper (s : String) : String :=
  ⟨s.data.map Char.toUpper⟩

/-- `re.sub(r'\s+', ' ', ...)`: collapse every whitespace run to one space
(the flag records whether the previous character was whitespace, i.e.
whether we are inside a run whose space was already emitted). -/
def collapseWsAux : List Char → Bool → List Char
  | [], _ => []
  | c :: r, prevWs =>
    if isPyWs c then (if prevWs then [] else [' ']) ++ collapseWsAux r true
    else c :: collapseWsAux r false

def collapseWs (cs : List Char) : List Char :=
  collapseWsAux cs false

/-- `normalize_text(text)`: empty for falsy input, else whitespace runs
collapsed on the stripped string. -/
def normalize_text (text : String) : String :=
  if text = "" then "" else ⟨collapseWs (stripWsList text.data)⟩

/-- Python `str.title()` (ASCII): a cased character is uppercased after a
non-cased character and lowercased otherwise. -/
def titleMap : List Char → Bool → List Char
  | [], _ => []
  | c :: r, prevAlpha =>
    (if c.isAlpha then (if prevAlpha then c.toLower else c.toUpper) else c) ::
      titleMap r c.isAlpha

def pyTitle (s : String) : String := ⟨titleMap s.data false⟩

/-- `normalize_name(name)`: basic text normalization then title case. -/
def normalize_name (name : String) : String :=
  if name = "" then "" else pyTitle (normalize_text name)

/-- `normalize_date(date_str)`: strip, map `O`/`o` to `0`, then try the six
`DATE_INPUT_FORMATS` in order, returning the first `strptime` success
formatted as `YYYY-MM-DD`, and `None` when every format fails. -/
def normalize_date (date_str : String) : Option String :=
  if date_str = "" then none
  else
    match
      [checkedDate (strptimeDMY '/' (repl 'o' '0' (repl 'O' '0' (pyStrip date_str)))),
       checkedDate (strptimeDMY '-' (repl 'o' '0' (repl 'O' '0' (pyStrip date_str)))),
       checkedDate (strptimeDMY '.' (repl 'o' '0' (repl 'O' '0' (pyStrip date_str)))),
       checkedDate (strptimeYMD (repl 'o' '0' (repl 'O' '0' (pyStrip date_str)))),
       checkedDate (strptimeDNameY monthAbbrevs (repl 'o' '0' (repl 'O' '0' (pyStrip date_str)))),
       checkedDate (strptimeDNameY monthFulls (repl 'o' '0' (repl 'O' '0' (pyStrip date_str))))].findSome? id
    with
    | some (y, m, d) => some (natPad 4 y ++ "-" ++ natPad 2 m ++ "-" ++ natPad 2 d)
    | none => none

/-- `normalize_passport_number(passport_number)`: `O`/`o` to `0`, spaces and
dashes removed, uppercased. -/
def normalize_passport_number (passport_number : String) : String :=
  if passport_number = "" then ""
  else pyUpper (removeChar '-' (removeChar ' ' (repl 'o' '0' (repl 'O' '0' passport_number))))

/-- `normalize_sex(sex)`: trimmed/uppercased, mapped to `M`/`F`, and
otherwise the first character of the non-empty normalized string (the
`normalized[0] if normalized else ""` guard is the head-of-list match). -/
def normalize_sex (sex : String) : String :=
  if sex = "" then ""
  else
    if pyUpper (pyStrip sex) = "M" ∨ pyUpper (pyStrip sex) = "MALE" ∨
        pyUpper (pyStrip sex) = "MAN" then "M"
    else if pyUpper (pyStrip sex) = "F" ∨ pyUpper (pyStrip sex) = "FEMALE" ∨
        pyUpper (pyStrip sex) = "WOMAN" then "F"
    else
      match (pyUpper (pyStrip sex)).data with
      | [] => ""
      | c :: _ => ⟨[c]⟩

/-- `normalize_nationality(nationality)`: trimmed/uppercased, mapped through
the fixed country table; the source's final `len == 3` branch and its
fall-through both return the normalized string unchanged. -/
def normalize_nationality (nationality : String) : String :=
  if nationality = "" then ""
  else
    if pyUpper (pyStrip nationality) = "UNITED ARAB EMIRATES" ∨
        pyUpper (pyStrip nationality) = "UAE" then "ARE"
    else if pyUpper (pyStrip nationality) = "INDIA" then "IND"
    else if pyUpper (pyStrip nationality) = "PAKISTAN" then "PAK"
    else if pyUpper (pyStrip nationality) = "BANGLADESH" then "BGD"
    else if pyUpper (pyStrip nationality) = "PHILIPPINES" then "PHL"
    else if pyUpper (pyStrip nationality) = "EGYPT" then "EGY"
    else pyUpper (pyStrip nationality)

/-! ### Fields and the ID-card pipeline (`backend/app/pipelines/`) -/

/-- The `{value, confidence, bbox?}` dictionary of `_create_field_dict`. -/
structure Field where
  value : String
  confidence : ℝ
  bbox : Option (List ℚ)

/-- Decimal rounding `round(x, k)` over the idealized reals (Python rounds
the underlying binary float half-to-even; no fact proved here sits at a
tie). -/
noncomputable def rndTo (k : Nat) (x : ℝ) : ℝ :=
  ((round (x * (10 : ℝ) ^ k) : Int) : ℝ) / (10 : ℝ) ^ k

/-- `round(coord, 2)` for bounding-box coordinates (floats = rationals). -/
def rndQ2 (x : ℚ) : ℚ :=
  ((round (x * 100) : Int) : ℚ) / 100

/-- `_create_field_dict(value, confidence, bbox)` from
`backend/app/pipelines/base.py`: confidence rounded to 3 decimals, a truthy
bbox rounded to 2 decimals per coordinate. -/
noncomputable def create_field_dict (value : String) (confidence : ℝ)
    (bbox : Option (List ℚ)) : Field :=
  { value := value
    confidence := rndTo 3 confidence
    bbox := match bbox with
      | some l => if l = [] then none else some (l.map rndQ2)
      | none => none }

/-- The per-field normalizer table `normalization_map` of
`_normalize_fields` in `backend/app/pipelines/emirates_id.py`; `none`
stands both for a field name outside the map and for a date that
`normalize_date` could not parse — in either case the caller keeps the old
value. -/
def applyNormalizer (name : String) (v : String) : Option String :=
  if name = "id_number" then some (normalize_emirates_id v)
  else if name = "full_name" then some (normalize_name v)
  else if name = "date_of_birth" then normalize_date v
  else if name = "nationality" then some (normalize_nationality v)
  else if name = "sex" then some (normalize_sex v)
  else if name = "issue_date" then normalize_date v
  else if name = "expiry_date" then normalize_date v
  else none

/-- The body of the `_normalize_fields` loop for one field: normalize only
truthy values, and keep the old value unless the normalizer returned a
truthy result. -/
def normalizeFieldValue (name : String) (v : String) : String :=
  if v = "" then v
  else
    match applyNormalizer name v with
    | some nv => if nv = "" then v else nv
    | none => v

/-- `_normalize_fields(fields)` of the Emirates-ID pipeline, with the
pipeline's warning list threaded through explicitly (the function never
calls `add_warning`). -/
def normalize_fields (fields : List (String × Field)) (ws : List Warning) :
    List (String × Field) × List Warning :=
  (fields.map fun p => (p.1, { p.2 with value := normalizeFieldValue p.1 p.2.value }), ws)

/-- One recognized text span from the OCR reader for a region: the vertical
position of its first bounding-box vertex (`x[0][0][1]`, the sort key),
its text, and its recognition confidence. -/
structure OcrSpan where
  y : ℚ
  text : String
  conf : ℝ

/-- `avg_confidence = sum(confidences) / len(confidences)`. -/
noncomputable def avgConf (spans : List OcrSpan) : ℝ :=
  (spans.map OcrSpan.conf).sum / spans.length

/-- `final_confidence = (detection_conf * avg_confidence) ** 0.5` — the
geometric-mean confidence fusion of `_extract_text_from_detections`. -/
noncomputable def combine (d r : ℝ) : ℝ := (d * r) ^ ((1 : ℝ) / 2)

/-- `ocr_results.sort(key=lambda x: x[0][0][1])` (Python's stable sort). -/
def sortSpans (spans : List OcrSpan) : List OcrSpan :=
  spans.mergeSort (fun a b => a.y ≤ b.y)

/-- One entry of the `_detect_fields` result: `{bbox, confidence}`. -/
structure DetEntry where
  bbox : List ℚ
  conf : ℚ
deriving DecidableEq

/-- The body of the `_extract_text_from_detections` loop for one detected
field: with OCR spans present, sort them by vertical position, join the
texts with single spaces, fuse the detection confidence with the mean
recognition confidence, warn (keeping the field) when the fused confidence
is below the hardcoded `MIN_OCR_CONFIDENCE = 0.5`; with no spans, emit an
empty field at confidence 0 with a no-text warning. -/
noncomputable def extractField (field_name : String) (det : DetEntry)
    (ocr_results : List OcrSpan) : Field × List Warning :=
  match ocr_results with
  | [] => (create_field_dict "" 0 (some det.bbox), [Warning.noText field_name])
  | _ :: _ =>
    (create_field_dict (String.intercalate " " ((sortSpans ocr_results).map OcrSpan.text))
      (combine (det.conf : ℝ) (avgConf (sortSpans ocr_results))) (some det.bbox),
     if combine (det.conf : ℝ) (avgConf (sortSpans ocr_results)) < 0.5 then
       [Warning.lowConfidence
         (rndTo 2 (combine (det.conf : ℝ) (avgConf (sortSpans ocr_results)))) field_name]
     else [])

/-- `_extract_text_from_detections(image, detections)`: iterate the
detection map in order, the OCR reader being the oracle `ocr` from a
region (bounding box) to its recognized spans. -/
noncomputable def extract_text_from_detections
    (detections : List (String × DetEntry)) (ocr : List ℚ → List OcrSpan) :
    List (String × Field) × List Warning :=
  detections.foldl
    (fun acc p =>
      (acc.1 ++ [(p.1, (extractField p.1 p.2 (ocr p.2.bbox)).1)],
       acc.2 ++ (extractField p.1 p.2 (ocr p.2.bbox)).2))
    ([], [])

/-! ### `_detect_fields` (`backend/app/pipelines/emirates_id.py`) -/

/-- One raw YOLO box: class name, `xyxy` bounding box, confidence. -/
structure RawBox where
  cls : String
  bbox : List ℚ
  conf : ℚ
deriving DecidableEq

/-- Lookup in the insertion-ordered detections dict. -/
def assocFind : List (String × DetEntry) → String → Option DetEntry
  | [], _ => none
  | p :: r, k => if p.1 = k then some p.2 else assocFind r k

/-- In-place update of an existing key of the detections dict. -/
def assocSet : List (String × DetEntry) → String → DetEntry → List (String × DetEntry)
  | [], _, _ => []
  | p :: r, k, v => if p.1 = k then (k, v) :: r else p :: assocSet r k v

/-- The body of the `_detect_fields` loop:
`if class_name not in detections or confidence > detections[class_name]['confidence']`. -/
def insertDet (m : List (String × DetEntry)) (b : RawBox) : List (String × DetEntry) :=
  match assocFind m b.cls with
  | none => m ++ [(b.cls, ⟨b.bbox, b.conf⟩)]
  | some old => if b.conf > old.conf then assocSet m b.cls ⟨b.bbox, b.conf⟩ else m

/-- `_detect_fields(image)` after the YOLO call: fold the raw boxes into
the per-class detections dict. -/
def detect_fields (boxes : List RawBox) : List (String × DetEntry) :=
  boxes.foldl insertDet []

/-- Specification device for `detect_fields`: the running best entry for
one class name. -/
def bestStep (cur : Option DetEntry) (b : RawBox) : Option DetEntry :=
  match cur with
  | none => some ⟨b.bbox, b.conf⟩
  | some old => if b.conf > old.conf then some ⟨b.bbox, b.conf⟩ else some old

/-! ### Exception routing (`process` / `_extract_mrz`) -/

/-- A Python exception as the pipelines distinguish them: an
`HTTPException(status, detail)` or any other exception with its message. -/
inductive PyExc where
  | httpExc (status : Nat) (detail : String)
  | exc (msg : String)
deriving DecidableEq

/-- The slice of the passporteye MRZ object the extraction guard reads. -/
structure Mrz where
  mrz_type : String
deriving DecidableEq

/-- The `try/except` of `EmiratesIDPipeline.process`: `HTTPException`
re-raised unchanged, anything else replaced by a generic 500. -/
def emirates_process_handler {α : Type} (body : Except PyExc α) : Except PyExc α :=
  match body with
  | Except.ok v => Except.ok v
  | Except.error (PyExc.httpExc s d) => Except.error (PyExc.httpExc s d)
  | Except.error (PyExc.exc _) =>
    Except.error (PyExc.httpExc 500 "Internal server error during Emirates ID processing")

/-- `EmiratesIDPipeline.process` around its try-body: an empty detection
map raises the 422 hard failure; `rest` stands for the outcome of steps
2–4 (extraction, normalization, validation), whose collaborators may raise
arbitrary exceptions. -/
def emirates_process (detections : List (String × DetEntry))
    (rest : Except PyExc (List (String × Field))) : Except PyExc (List (String × Field)) :=
  emirates_process_handler
    (if detections = [] then
      Except.error (PyExc.httpExc 422
        "No Emirates ID fields detected. Please ensure the image is clear and contains an Emirates ID.")
    else rest)

/-- `PassportPipeline._extract_mrz`: the result of `read_mrz` (or an
exception from the conversion/read code) is turned into the two 422 hard
failures, re-raised if already an `HTTPException`, and otherwise wrapped as
`422 "MRZ extraction failed: {str(e)}"`. -/
def extract_mrz (read_result : Except PyExc (Option Mrz)) : Except PyExc Mrz :=
  match read_result with
  | Except.error (PyExc.httpExc s d) => Except.error (PyExc.httpExc s d)
  | Except.error (PyExc.exc m) =>
    Except.error (PyExc.httpExc 422 ("MRZ extraction failed: " ++ m))
  | Except.ok none =>
    Except.error (PyExc.httpExc 422
      "No MRZ detected in image. Ensure passport MRZ is visible and clear.")
  | Except.ok (some mrz) =>
    if mrz.mrz_type = "" then
      Except.error (PyExc.httpExc 422 "MRZ detected but could not be parsed")
    else Except.ok mrz

/-- `PassportPipeline.process`: no surrounding `try`, so an exception in
the post-extraction steps propagates unchanged. -/
def passport_process (mrz_result : Except PyExc Mrz)
    (rest : Mrz → Except PyExc (List (String × Field))) :
    Except PyExc (List (String × Field)) :=
  match mrz_result with
  | Except.error e => Except.error e
  | Except.ok m => rest m

/-- A character none of the `eidClean` substitutions can touch. -/
def eidGood (c : Char) : Prop :=
  c ≠ ' ' ∧ c ≠ 'O' ∧ c ≠ 'o' ∧ c ≠ 'I' ∧ c ≠ 'l' ∧ c ≠ '_'

instance (c : Char) : Decidable (eidGood c) := by
  unfold eidGood
  infer_instance

end Scanner

namespace Scanner

theorem map_fix {f : Char → Char} : ∀ {l : List Char}, (∀ c ∈ l, f c = c) → l.map f = l := by
  intro l h
  induction l with
  | nil => rfl
  | cons c t ih =>
    rw [List.map_cons, h c (List.mem_cons_self c t),
      ih fun x hx => h x (List.mem_cons_of_mem c hx)]

theorem repl_eq_self {a b : Char} {s : String} (h : ∀ c ∈ s.data, c ≠ a) :
    repl a b s = s := by
  obtain ⟨l⟩ := s
  unfold repl
  congr 1
  exact map_fix fun c hc => if_neg (h c hc)

theorem removeChar_eq_self {a : Char} {s : String} (h : ∀ c ∈ s.data, c ≠ a) :
    removeChar a s = s := by
  obtain ⟨l⟩ := s
  unfold removeChar
  congr 1
  exact List.filter_eq_self.mpr fun c hc => bne_iff_ne.mpr (h c hc)

theorem eidClean_of_good {s : String} (h : ∀ c ∈ s.data, eidGood c) : eidClean s = s := by
  unfold eidClean
  rw [repl_eq_self fun c hc => (h c hc).2.1,
    repl_eq_self fun c hc => (h c hc).2.2.1,
    repl_eq_self fun c hc => (h c hc).2.2.2.1,
    repl_eq_self fun c hc => (h c hc).2.2.2.2.1,
    removeChar_eq_self fun c hc => (h c hc).1,
    repl_eq_self fun c hc => (h c hc).2.2.2.2.2]

theorem eidClean_chars {s : String} : ∀ c ∈ (eidClean s).data, eidGood c := by
  intro c hc
  unfold eidClean repl removeChar at hc
  simp only [List.map_map, List.mem_map, List.mem_filter] at hc
  obtain ⟨y, ⟨hy, hyne⟩, rfl⟩ := hc
  simp only [List.mem_map, Function.comp_apply] at hy
  obtain ⟨x, _, rfl⟩ := hy
  try simp only [Function.comp_apply] at hyne
  try simp only [Function.comp_apply]
  try dsimp only at hyne
  try dsimp only
  by_cases hO : x = 'O'
  · subst hO; decide
  by_cases ho : x = 'o'
  · subst ho; decide
  by_cases hI : x = 'I'
  · subst hI; decide
  by_cases hl : x = 'l'
  · subst hl; decide
  by_cases hsp : x = ' '
  · subst hsp; simp at hyne
  by_cases hu : x = '_'
  · subst hu; decide
  · rw [if_neg hO, if_neg ho] at hyne ⊢
    rw [if_neg hI, if_neg hl] at hyne ⊢
    rw [if_neg hu]
    exact ⟨hsp, hO, ho, hI, hl, hu⟩

theorem eidGood_of_digit {c : Char} (h : c.isDigit) : eidGood c := by
  refine ⟨?_, ?_, ?_, ?_, ?_, ?_⟩ <;> rintro rfl <;> exact absurd h (by decide)

theorem eid_reassemble {ds : List Char} (h : ds.length = 15) :
    ds.take 3 ++ (ds.drop 3).take 4 ++ (ds.drop 7).take 7 ++ (ds.drop 14).take 1 = ds := by
  have h1 : (ds.drop 14).take 1 = ds.drop 14 := List.take_of_length_le (by simp [h])
  rw [h1, ← List.take_add]
  norm_num
  rw [show List.drop 14 ds = List.drop 7 (List.drop 7 ds) from by rw [List.drop_drop]]
  rw [List.take_append_drop, List.take_append_drop]

theorem eidDashed_data (ds : List Char) :
    (eidDashed ds).data = ds.take 3 ++ ['-'] ++ (ds.drop 3).take 4 ++ ['-'] ++
      (ds.drop 7).take 7 ++ ['-'] ++ (ds.drop 14).take 1 := by
  unfold eidDashed
  simp only [String.data_append]

theorem eidDashed_digits {ds : List Char} (hds : ∀ c ∈ ds, c.isDigit)
    (h : ds.length = 15) : (eidDashed ds).data.filter Char.isDigit = ds := by
  rw [eidDashed_data]
  simp only [List.filter_append]
  have hdash : List.filter Char.isDigit ['-'] = [] := rfl
  rw [List.filter_eq_self.mpr fun c hc => hds c (List.mem_of_mem_take hc),
    List.filter_eq_self.mpr fun c hc =>
      hds c (List.mem_of_mem_drop (List.mem_of_mem_take hc)),
    List.filter_eq_self.mpr fun c hc =>
      hds c (List.mem_of_mem_drop (List.mem_of_mem_take hc)),
    List.filter_eq_self.mpr fun c hc =>
      hds c (List.mem_of_mem_drop (List.mem_of_mem_take hc))]
  simp only [hdash, List.append_nil]
  exact eid_reassemble h

theorem eidDashed_good {ds : List Char} (hds : ∀ c ∈ ds, c.isDigit) :
    ∀ c ∈ (eidDashed ds).data, eidGood c := by
  intro c hc
  rw [eidDashed_data] at hc
  simp only [List.mem_append, List.mem_singleton] at hc
  rcases hc with ((((((hc | rfl) | hc) | rfl) | hc) | rfl) | hc)
  · exact eidGood_of_digit (hds c (List.mem_of_mem_take hc))
  · decide
  · exact eidGood_of_digit (hds c (List.mem_of_mem_drop (List.mem_of_mem_take hc)))
  · decide
  · exact eidGood_of_digit (hds c (List.mem_of_mem_drop (List.mem_of_mem_take hc)))
  · decide
  · exact eidGood_of_digit (hds c (List.mem_of_mem_drop (List.mem_of_mem_take hc)))

theorem eidDashed_ne_empty {ds : List Char} (h : ds.length = 15) :
    eidDashed ds ≠ "" := by
  intro he
  have hdata := congrArg String.data he
  rw [eidDashed_data] at hdata
  have hlen := congrArg List.length hdata
  simp [List.length_append, List.length_take, List.length_drop, h] at hlen

/-- C5: Emirates-ID normalization — if the cleaned form of the input
contains exactly 15 digits the result is those digits in the `3-4-7-1`
dashed grouping; otherwise the result is the partially cleaned string; and
a second application of normalization is the identity on any first
application's output. -/
theorem c5_normalize_eid_correct (x : String) :
    (((eidClean x).data.filter Char.isDigit).length = 15 →
      normalize_emirates_id x = eidDashed ((eidClean x).data.filter Char.isDigit)) ∧
    (((eidClean x).data.filter Char.isDigit).length ≠ 15 →
      normalize_emirates_id x = eidClean x) ∧
    normalize_emirates_id (normalize_emirates_id x) = normalize_emirates_id x := by
  by_cases hx : x = ""
  · subst hx
    refine ⟨fun h => absurd h (by decide), fun _ => by decide, by decide⟩
  · refine ⟨fun h15 => ?_, fun h15 => ?_, ?_⟩
    · unfold normalize_emirates_id
      rw [if_neg hx, if_pos h15]
    · unfold normalize_emirates_id
      rw [if_neg hx, if_neg h15]
    · by_cases h15 : ((eidClean x).data.filter Char.isDigit).length = 15
      · have hx1 : normalize_emirates_id x =
            eidDashed ((eidClean x).data.filter Char.isDigit) := by
          unfold normalize_emirates_id
          rw [if_neg hx, if_pos h15]
        rw [hx1]
        have hdig : ∀ c ∈ (eidClean x).data.filter Char.isDigit, c.isDigit :=
          fun c hc => (List.mem_filter.mp hc).2
        unfold normalize_emirates_id
        rw [if_neg (eidDashed_ne_empty h15)]
        rw [eidClean_of_good (eidDashed_good hdig)]
        rw [eidDashed_digits hdig h15]
        rw [if_pos h15]
      · have hx1 : normalize_emirates_id x = eidClean x := by
          unfold normalize_emirates_id
          rw [if_neg hx, if_neg h15]
        rw [hx1]
        by_cases hc : eidClean x = ""
        · rw [hc]
          decide
        · unfold normalize_emirates_id
          rw [if_neg hc]
          rw [eidClean_of_good eidClean_chars]
          rw [if_neg h15]

/-- Witness for C5 at a concrete 15-digit input with spaces. -/
theorem c5_normalize_eid_correct_witness :
    ((eidClean "784 1984 5551234 7").data.filter Char.isDigit).length = 15 ∧
    normalize_emirates_id "784 1984 5551234 7" =
      eidDashed ((eidClean "784 1984 5551234 7").data.filter Char.isDigit) :=
  ⟨by decide, (c5_normalize_eid_correct "784 1984 5551234 7").1 (by decide)⟩

theorem isPyWs_false_of_isDigit {c : Char} (h : c.isDigit) : isPyWs c = false := by
  simp only [isPyWs, decide_eq_false_iff_not]
  push_neg
  refine ⟨?_, ?_, ?_, ?_, ?_, ?_⟩ <;> rintro rfl <;> exact absurd h (by decide)

theorem stripWsList_of_digits {cs : List Char} (h : ∀ c ∈ cs, c.isDigit) :
    stripWsList cs = cs := by
  have hdrop : ∀ ds : List Char, (∀ c ∈ ds, c.isDigit) → ds.dropWhile isPyWs = ds := by
    intro ds hds
    cases ds with
    | nil => rfl
    | cons a t =>
      rw [List.dropWhile_cons_of_neg]
      simp [isPyWs_false_of_isDigit (hds a (by simp))]
  unfold stripWsList
  rw [hdrop cs h, hdrop _ (by intro c hc; exact h c (List.mem_reverse.mp hc)),
    List.reverse_reverse]

theorem pyIntList_digits {cs : List Char} (hne : cs ≠ []) (h : ∀ c ∈ cs, c.isDigit) :
    pyIntList cs = some ((digitsVal cs : Nat) : Int) := by
  unfold pyIntList
  rw [stripWsList_of_digits h]
  cases cs with
  | nil => exact absurd rfl hne
  | cons a t =>
    have ha : a.isDigit := h a (by simp)
    have hplus : a ≠ '+' := by rintro rfl; exact absurd ha (by decide)
    have hminus : a ≠ '-' := by rintro rfl; exact absurd ha (by decide)
    simp only [if_neg hplus, if_neg hminus]
    rw [if_pos]
    simp only [List.all_eq_true]
    intro c hc
    exact h c hc

theorem exists_six {α : Type} {l : List α} (h : l.length = 6) :
    ∃ a b c d e f : α, l = [a, b, c, d, e, f] := by
  rcases l with _ | ⟨a, _ | ⟨b, _ | ⟨c, _ | ⟨d, _ | ⟨e, _ | ⟨f, _ | ⟨g, t⟩⟩⟩⟩⟩⟩⟩
  · simp at h
  · simp at h
  · simp at h
  · simp at h
  · simp at h
  · simp at h
  · exact ⟨a, b, c, d, e, f, rfl⟩
  · simp at h

theorem intFmt_natCast (w n : Nat) : intFmt w ((n : Nat) : Int) = natPad w n := by
  unfold intFmt
  rw [if_neg (by simp)]
  simp

/-- C2 (counterexample): Python `int` accepts a leading sign, so the
non-digit string `"+50101"` resolves to `"2005-01-01"` instead of the null
the claim requires for any input containing a non-digit character. -/
theorem c2_mrz_date_sign_counterexample :
    parse_mrz_date "+50101" = some "2005-01-01" := by decide

/-- C2 (amended): `_parse_mrz_date` returns `none` when the input length is
not 6 or any of the three 2-character slices fails Python integer parsing;
on an all-digit 6-character string it resolves the century as `1900+YY` when
`YY > 50` and `2000+YY` otherwise and produces zero-padded `YYYY-MM-DD`
(no calendar validity check), so `"850101"` ↦ `"1985-01-01"`,
`"050101"` ↦ `"2005-01-01"` and `"500101"` ↦ `"2050-01-01"`. -/
theorem c2_mrz_date_resolution (s : String)
    (hlen : s.length = 6) (hdig : ∀ c ∈ s.data, c.isDigit) :
    (∀ t : String, t.length ≠ 6 → parse_mrz_date t = none) ∧
    (∀ t : String, pyInt (pySlice t 0 2) = none ∨ pyInt (pySlice t 2 4) = none ∨
      pyInt (pySlice t 4 6) = none → parse_mrz_date t = none) ∧
    parse_mrz_date s = some (
      natPad 4 (if 50 < digitsVal (s.data.take 2) then 1900 + digitsVal (s.data.take 2)
        else 2000 + digitsVal (s.data.take 2)) ++ "-" ++
      natPad 2 (digitsVal ((s.data.drop 2).take 2)) ++ "-" ++
      natPad 2 (digitsVal ((s.data.drop 4).take 2))) ∧
    parse_mrz_date "850101" = some "1985-01-01" ∧
    parse_mrz_date "050101" = some "2005-01-01" ∧
    parse_mrz_date "500101" = some "2050-01-01" := by
  refine ⟨?_, ?_, ?_, by decide, by decide, by decide⟩
  · intro t ht
    unfold parse_mrz_date
    rw [if_pos (Or.inr ht)]
  · intro t ht
    unfold parse_mrz_date
    split
    · rfl
    · cases e1 : pyInt (pySlice t 0 2) <;> cases e2 : pyInt (pySlice t 2 4) <;>
        cases e3 : pyInt (pySlice t 4 6) <;> simp_all
  · have hl : s.data.length = 6 := hlen
    obtain ⟨a, b, c, d, e, f, hd⟩ := exists_six hl
    have hda : a.isDigit := hdig a (by rw [hd]; simp)
    have hdb : b.isDigit := hdig b (by rw [hd]; simp)
    have hdc : c.isDigit := hdig c (by rw [hd]; simp)
    have hdd : d.isDigit := hdig d (by rw [hd]; simp)
    have hde : e.isDigit := hdig e (by rw [hd]; simp)
    have hdf : f.isDigit := hdig f (by rw [hd]; simp)
    have hne : ¬ s.isEmpty := by
      rw [String.isEmpty_iff]
      intro h
      rw [h] at hd
      simp at hd
    have h02 : pyInt (pySlice s 0 2) = some ((digitsVal [a, b] : Nat) : Int) := by
      show pyIntList ((s.data.drop 0).take 2) = _
      rw [hd]
      exact pyIntList_digits (by simp) (by intro x hx; simp at hx; rcases hx with rfl | rfl <;> assumption)
    have h24 : pyInt (pySlice s 2 4) = some ((digitsVal [c, d] : Nat) : Int) := by
      show pyIntList ((s.data.drop 2).take 2) = _
      rw [hd]
      exact pyIntList_digits (by simp) (by intro x hx; simp at hx; rcases hx with rfl | rfl <;> assumption)
    have h46 : pyInt (pySlice s 4 6) = some ((digitsVal [e, f] : Nat) : Int) := by
      show pyIntList ((s.data.drop 4).take 2) = _
      rw [hd]
      exact pyIntList_digits (by simp) (by intro x hx; simp at hx; rcases hx with rfl | rfl <;> assumption)
    unfold parse_mrz_date
    rw [if_neg (by push_neg; exact ⟨by simpa using hne, hlen⟩)]
    rw [h02, h24, h46]
    have htake2 : s.data.take 2 = [a, b] := by rw [hd]; rfl
    have htake24 : (s.data.drop 2).take 2 = [c, d] := by rw [hd]; rfl
    have htake46 : (s.data.drop 4).take 2 = [e, f] := by rw [hd]; rfl
    rw [htake2, htake24, htake46]
    simp only [gt_iff_lt]
    by_cases h50 : 50 < digitsVal [a, b]
    · rw [if_pos (by exact_mod_cast h50), if_pos h50]
      have hy : (1900 : Int) + (digitsVal [a, b] : Nat) = ((1900 + digitsVal [a, b] : Nat) : Int) := by
        push_cast
        ring
      rw [hy, intFmt_natCast, intFmt_natCast, intFmt_natCast]
    · rw [if_neg (by exact_mod_cast h50), if_neg h50]
      have hy : (2000 : Int) + (digitsVal [a, b] : Nat) = ((2000 + digitsVal [a, b] : Nat) : Int) := by
        push_cast
        ring
      rw [hy, intFmt_natCast, intFmt_natCast, intFmt_natCast]

/-- Witness for C2 at the concrete input `"850101"`. -/
theorem c2_mrz_date_resolution_witness :
    ("850101" : String).length = 6 ∧
    parse_mrz_date "850101" = some "1985-01-01" :=
  ⟨by decide, (c2_mrz_date_resolution "850101" (by decide) (by decide)).2.2.2.1⟩

/-- C7: a stored check digit that is absent (empty) or the filler `<` makes
`validate_mrz_checksum` return `true` regardless of the data. -/
theorem c7_checksum_skip_on_filler (data cd : String)
    (h : cd = "" ∨ cd = "<") :
    validate_mrz_checksum data cd = true := by
  rcases h with h | h <;> subst h <;> simp [validate_mrz_checksum, String.isEmpty]

/-- Witness for C7 at concrete inputs. -/
theorem c7_checksum_skip_on_filler_witness :
    ("<" = "" ∨ "<" = "<") ∧ validate_mrz_checksum "D23145890" "<" = true :=
  ⟨Or.inr rfl, c7_checksum_skip_on_filler "D23145890" "<" (Or.inr rfl)⟩

/-- C1 (failing input): the code maps the filler `<` to 36 (its position in
the lookup string) instead of the ICAO/spec value 0, so for data `"<"` with
stored check digit `"0"` the code rejects while the specified algorithm
(sum `0*7 = 0`, check digit `0`) accepts. -/
theorem c1_checksum_filler_value_bug :
    validate_mrz_checksum "<" "0" = false ∧ specCheckDigit "<".data = 0 := by
  constructor <;> decide

/-- C6 (counterexample): with both dates present but one unparseable, the
check is evaluated and fails with an invalid-format message — it is not
silently skipped as the claim ("only evaluated when both dates parsed
successfully") requires. -/
theorem c6_date_consistency_counterexample :
    validate_date_consistency "2020-01-01" "not-a-date" =
      (false, some (DateErr.invalidFormat "not-a-date")) := by decide

/-- C6 (amended): the caller skips the date check silently when either
date value is missing/empty; when both dates parse as `YYYY-MM-DD`
calendar dates the check passes exactly when expiry is strictly after
issue, and a violation produces the warning naming both dates. -/
theorem c6_date_consistency_correct (i e : String) (di de : Nat × Nat × Nat)
    (hi : i ≠ "") (he : e ≠ "") (hpi : pyYMD i = some di) (hpe : pyYMD e = some de) :
    (∀ i2 e2 : String, ∀ ws : List Warning, i2 = "" ∨ e2 = "" →
      dateCheckStep i2 e2 ws = ws) ∧
    (validate_date_consistency i e = (true, none) ↔ dateLeB de di = false) ∧
    (dateLeB de di = true → ∀ ws : List Warning,
      validate_date_consistency i e =
        (false, some (DateErr.orderViolation e i)) ∧
      dateCheckStep i e ws =
        ws ++ [Warning.dateValidation (some (DateErr.orderViolation e i))]) := by
  have hval : validate_date_consistency i e =
      (if dateLeB de di then (false, some (DateErr.orderViolation e i))
       else (true, none)) := by
    unfold validate_date_consistency
    rw [if_neg (by push_neg; exact ⟨hi, he⟩), hpi, hpe]
  refine ⟨?_, ?_, ?_⟩
  · intro i2 e2 ws h
    unfold dateCheckStep
    rw [if_neg (by rcases h with rfl | rfl <;> simp)]
  · rw [hval]
    cases hde : dateLeB de di <;> simp
  · intro hde ws
    rw [hval, if_pos hde]
    refine ⟨rfl, ?_⟩
    unfold dateCheckStep
    rw [if_pos ⟨hi, he⟩, hval, if_pos hde]

/-- C3: the combined field confidence is `sqrt(d * r)` — the geometric
mean — hence `combine(x, x) = x` on `[0, 1]` and `combine(d, 0) =
combine(0, r) = 0`. -/
theorem c3_confidence_combiner (d r x : ℝ)
    (hd0 : 0 ≤ d) (hd1 : d ≤ 1) (hr0 : 0 ≤ r) (hr1 : r ≤ 1)
    (hx0 : 0 ≤ x) (hx1 : x ≤ 1) :
    combine d r = Real.sqrt (d * r) ∧ combine x x = x ∧
    combine d 0 = 0 ∧ combine 0 r = 0 := by
  have key : ∀ a b : ℝ, combine a b = Real.sqrt (a * b) := by
    intro a b
    unfold combine
    exact (Real.sqrt_eq_rpow (a * b)).symm
  refine ⟨key d r, ?_, ?_, ?_⟩
  · rw [key]
    exact Real.sqrt_mul_self hx0
  · rw [key, mul_zero, Real.sqrt_zero]
  · rw [key, zero_mul, Real.sqrt_zero]

/-- Witness for C3 at `d = r = x = 1/2`. -/
theorem c3_confidence_combiner_witness :
    (0 : ℝ) ≤ 1/2 ∧ (1/2 : ℝ) ≤ 1 ∧
    (combine (1/2) (1/2) = Real.sqrt ((1/2) * (1/2)) ∧ combine (1/2) (1/2) = 1/2 ∧
      combine (1/2) 0 = 0 ∧ combine 0 (1/2) = 0) :=
  ⟨by norm_num, by norm_num,
    c3_confidence_combiner (1/2) (1/2) (1/2) (by norm_num) (by norm_num) (by norm_num)
      (by norm_num) (by norm_num) (by norm_num)⟩

/-- C8 (counterexample): an unexpected exception on the passport path is
surfaced with the same 422 status as the documented hard failures and with
the internal exception message embedded in the caller-visible detail. -/
theorem c8_internal_error_exposure_counterexample :
    extract_mrz (Except.error (PyExc.exc "boom")) =
      Except.error (PyExc.httpExc 422 "MRZ extraction failed: boom") ∧
    extract_mrz (Except.ok none) =
      Except.error (PyExc.httpExc 422
        "No MRZ detected in image. Ensure passport MRZ is visible and clear.") :=
  ⟨rfl, rfl⟩

/-- C8 (amended): on the ID-card path unexpected exceptions become a
generic 500 with no internal detail and `HTTPException`s pass through; on
the passport path an unexpected exception during MRZ extraction becomes a
422 whose detail embeds the exception message, and exceptions raised after
extraction propagate unhandled. -/
theorem c8_internal_error_routing (msg : String) (s : Nat) (d : String)
    (dets : List (String × DetEntry)) (hne : dets ≠ [])
    (m : Mrz) (rest : Mrz → Except PyExc (List (String × Field))) :
    emirates_process dets (Except.error (PyExc.exc msg)) =
      Except.error (PyExc.httpExc 500 "Internal server error during Emirates ID processing") ∧
    (emirates_process_handler (Except.error (PyExc.httpExc s d)) :
        Except PyExc (List (String × Field))) =
      Except.error (PyExc.httpExc s d) ∧
    extract_mrz (Except.error (PyExc.exc msg)) =
      Except.error (PyExc.httpExc 422 ("MRZ extraction failed: " ++ msg)) ∧
    passport_process (Except.ok m) rest = rest m ∧
    passport_process (Except.ok m) (fun _ => Except.error (PyExc.exc msg)) =
      Except.error (PyExc.exc msg) := by
  refine ⟨?_, rfl, rfl, rfl, rfl⟩
  unfold emirates_process
  rw [if_neg hne]
  rfl

/-- Witness for C8 with a nonempty detection map. -/
theorem c8_internal_error_routing_witness :
    ([("id_number", (⟨[], 0⟩ : DetEntry))] : List (String × DetEntry)) ≠ [] ∧
    emirates_process [("id_number", ⟨[], 0⟩)] (Except.error (PyExc.exc "boom")) =
      Except.error (PyExc.httpExc 500 "Internal server error during Emirates ID processing") :=
  ⟨by simp,
    (c8_internal_error_routing "boom" 422 "x" [("id_number", ⟨[], 0⟩)] (by simp) ⟨"TD3"⟩
      (fun _ => Except.ok [])).1⟩

/-- C9: `_normalize_fields` adds no warnings; every output field keeps its
confidence and bbox and carries either its original value or a non-empty
normalizer output; and a date no format matches (where `normalize_date`
returns null) leaves the original value in place rather than raising. -/
theorem c9_normalization_never_raises (fields : List (String × Field)) (ws : List Warning) :
    ((normalize_fields fields ws).2 = ws) ∧
    (∀ p ∈ (normalize_fields fields ws).1, ∃ q ∈ fields, p.1 = q.1 ∧
      p.2.confidence = q.2.confidence ∧ p.2.bbox = q.2.bbox ∧
      (p.2.value = q.2.value ∨
        ∃ nv, applyNormalizer q.1 q.2.value = some nv ∧ nv ≠ "" ∧ p.2.value = nv)) ∧
    (∀ t, normalize_date t = none → normalizeFieldValue "issue_date" t = t) := by
  refine ⟨rfl, ?_, ?_⟩
  · intro p hp
    simp only [normalize_fields, List.mem_map] at hp
    obtain ⟨q, hq, rfl⟩ := hp
    refine ⟨q, hq, rfl, rfl, rfl, ?_⟩
    show normalizeFieldValue q.1 q.2.value = q.2.value ∨ _
    unfold normalizeFieldValue
    by_cases hv : q.2.value = ""
    · rw [if_pos hv]
      left
      rfl
    · rw [if_neg hv]
      cases han : applyNormalizer q.1 q.2.value with
      | none => left; rfl
      | some nv =>
        dsimp only
        by_cases hnv : nv = ""
        · rw [if_pos hnv]
          left
          rfl
        · rw [if_neg hnv]
          right
          exact ⟨nv, rfl, hnv, rfl⟩
  · intro t h
    unfold normalizeFieldValue
    by_cases ht : t = ""
    · rw [if_pos ht]
    · rw [if_neg ht]
      have happ : applyNormalizer "issue_date" t = normalize_date t := by
        unfold applyNormalizer
        rw [if_neg (by decide), if_neg (by decide), if_neg (by decide),
          if_neg (by decide), if_neg (by decide), if_pos rfl]
      rw [happ, h]

/-- Witness for C9 at an unparseable date value. -/
theorem c9_normalization_never_raises_witness :
    normalize_date "31/13/2020" = none ∧
    normalizeFieldValue "issue_date" "31/13/2020" = "31/13/2020" :=
  ⟨by decide, (c9_normalization_never_raises [] []).2.2 "31/13/2020" (by decide)⟩

theorem sqrt_fifth_bounds :
    Real.sqrt (1/5 : ℝ) < 1/2 ∧ (4465 : ℝ)/10000 ≤ Real.sqrt (1/5) ∧
    Real.sqrt (1/5 : ℝ) < 4475/10000 := by
  have hs := Real.sq_sqrt (show (0:ℝ) ≤ 1/5 by norm_num)
  have hnn := Real.sqrt_nonneg (1/5 : ℝ)
  refine ⟨by nlinarith, by nlinarith, by nlinarith⟩

theorem rnd3_sqrt_fifth : rndTo 3 (Real.sqrt (1/5)) = 447/1000 := by
  obtain ⟨-, hlo, hhi⟩ := sqrt_fifth_bounds
  unfold rndTo
  rw [round_eq]
  rw [show ⌊Real.sqrt (1/5) * (10:ℝ)^3 + 1/2⌋ = 447 from
    Int.floor_eq_iff.mpr ⟨by push_cast; nlinarith, by push_cast; nlinarith⟩]
  norm_num

theorem rnd2_sqrt_fifth : rndTo 2 (Real.sqrt (1/5)) = 9/20 := by
  obtain ⟨-, hlo, hhi⟩ := sqrt_fifth_bounds
  unfold rndTo
  rw [round_eq]
  rw [show ⌊Real.sqrt (1/5) * (10:ℝ)^2 + 1/2⌋ = 45 from
    Int.floor_eq_iff.mpr ⟨by push_cast; nlinarith, by push_cast; nlinarith⟩]
  norm_num

/-- C4: a field whose fused confidence is below the fixed 0.5 threshold is
still emitted, carrying the 3-decimal rounded confidence, together with
exactly one low-confidence warning naming the field; for detection
confidence 0.4 and recognition confidence 0.5 the emitted confidence is
`round(sqrt(0.2), 3) = 0.447` and the single warning carries the
2-decimal-formatted score 0.45. -/
theorem c4_low_confidence_warning :
    (∀ (name : String) (det : DetEntry) (s0 : OcrSpan) (rest : List OcrSpan),
      combine (det.conf : ℝ) (avgConf (sortSpans (s0 :: rest))) < 0.5 →
      (extractField name det (s0 :: rest)).2 =
        [Warning.lowConfidence
          (rndTo 2 (combine (det.conf : ℝ) (avgConf (sortSpans (s0 :: rest))))) name] ∧
      (extractField name det (s0 :: rest)).1.value =
        String.intercalate " " ((sortSpans (s0 :: rest)).map OcrSpan.text) ∧
      (extractField name det (s0 :: rest)).1.confidence =
        rndTo 3 (combine (det.conf : ℝ) (avgConf (sortSpans (s0 :: rest))))) ∧
    ((extractField "full_name" ⟨[0, 0, 1, 1], 2/5⟩ [⟨0, "JOHN", 1/2⟩]).1.confidence =
        447/1000 ∧
      (extractField "full_name" ⟨[0, 0, 1, 1], 2/5⟩ [⟨0, "JOHN", 1/2⟩]).2 =
        [Warning.lowConfidence (9/20) "full_name"]) := by
  have hgen : ∀ (name : String) (det : DetEntry) (s0 : OcrSpan) (rest : List OcrSpan),
      combine (det.conf : ℝ) (avgConf (sortSpans (s0 :: rest))) < 0.5 →
      (extractField name det (s0 :: rest)).2 =
        [Warning.lowConfidence
          (rndTo 2 (combine (det.conf : ℝ) (avgConf (sortSpans (s0 :: rest))))) name] ∧
      (extractField name det (s0 :: rest)).1.value =
        String.intercalate " " ((sortSpans (s0 :: rest)).map OcrSpan.text) ∧
      (extractField name det (s0 :: rest)).1.confidence =
        rndTo 3 (combine (det.conf : ℝ) (avgConf (sortSpans (s0 :: rest)))) := by
    intro name det s0 rest h
    unfold extractField
    dsimp only
    rw [if_pos h]
    exact ⟨rfl, rfl, rfl⟩
  refine ⟨hgen, ?_⟩
  have hsort : sortSpans [(⟨0, "JOHN", 1/2⟩ : OcrSpan)] = [⟨0, "JOHN", 1/2⟩] :=
    List.mergeSort_singleton ..
  have havg : avgConf (sortSpans [(⟨0, "JOHN", 1/2⟩ : OcrSpan)]) = 1/2 := by
    rw [hsort]
    unfold avgConf
    simp
  have hcomb :
      combine (((⟨[0, 0, 1, 1], 2/5⟩ : DetEntry).conf : ℝ))
        (avgConf (sortSpans [(⟨0, "JOHN", 1/2⟩ : OcrSpan)])) = Real.sqrt (1/5) := by
    rw [havg]
    unfold combine
    rw [← Real.sqrt_eq_rpow]
    norm_num
  have hlow :
      combine (((⟨[0, 0, 1, 1], 2/5⟩ : DetEntry).conf : ℝ))
        (avgConf (sortSpans [(⟨0, "JOHN", 1/2⟩ : OcrSpan)])) < 0.5 := by
    rw [hcomb]
    have := sqrt_fifth_bounds.1
    norm_num at this ⊢
    exact this
  obtain ⟨hw, -, hc⟩ := hgen "full_name" ⟨[0, 0, 1, 1], 2/5⟩ ⟨0, "JOHN", 1/2⟩ [] hlow
  constructor
  · rw [hc, hcomb, rnd3_sqrt_fifth]
  · rw [hw, hcomb, rnd2_sqrt_fifth]

/-- Witness for C4 at the spec's example field. -/
theorem c4_low_confidence_warning_witness :
    combine (((⟨[0, 0, 1, 1], 2/5⟩ : DetEntry).conf : ℝ))
      (avgConf (sortSpans [(⟨0, "JOHN", 1/2⟩ : OcrSpan)])) < 0.5 ∧
    (extractField "full_name" (⟨[0, 0, 1, 1], 2/5⟩ : DetEntry)
      [(⟨0, "JOHN", 1/2⟩ : OcrSpan)]).1.confidence =
      rndTo 3 (combine (((⟨[0, 0, 1, 1], 2/5⟩ : DetEntry).conf : ℝ))
        (avgConf (sortSpans [(⟨0, "JOHN", 1/2⟩ : OcrSpan)]))) := by
  have hsort : sortSpans [(⟨0, "JOHN", 1/2⟩ : OcrSpan)] = [⟨0, "JOHN", 1/2⟩] :=
    List.mergeSort_singleton ..
  have havg : avgConf (sortSpans [(⟨0, "JOHN", 1/2⟩ : OcrSpan)]) = 1/2 := by
    rw [hsort]
    unfold avgConf
    simp
  have hlow :
      combine (((⟨[0, 0, 1, 1], 2/5⟩ : DetEntry).conf : ℝ))
        (avgConf (sortSpans [(⟨0, "JOHN", 1/2⟩ : OcrSpan)])) < 0.5 := by
    rw [havg]
    unfold combine
    rw [← Real.sqrt_eq_rpow]
    have hs := Real.sq_sqrt (show (0:ℝ) ≤ ((2:ℚ):ℝ)/5 * (1/2) * 2 by push_cast; norm_num)
    have h2 : (((2:ℚ)/5 : ℚ) : ℝ) * (1/2) = 1/5 := by push_cast; norm_num
    rw [h2]
    have := sqrt_fifth_bounds.1
    norm_num at this ⊢
    exact this
  exact ⟨hlow,
    ((c4_low_confidence_warning).1 "full_name" ⟨[0, 0, 1, 1], 2/5⟩ ⟨0, "JOHN", 1/2⟩ []
      hlow).2.2⟩

theorem assocFind_append_none {m : List (String × DetEntry)} {name : String}
    (h : assocFind m name = none) (l : List (String × DetEntry)) :
    assocFind (m ++ l) name = assocFind l name := by
  induction m with
  | nil => rfl
  | cons p r ih =>
    rw [List.cons_append]
    simp only [assocFind] at h ⊢
    by_cases hp : p.1 = name
    · rw [if_pos hp] at h
      simp at h
    · rw [if_neg hp] at h ⊢
      exact ih h

theorem assocFind_append_some {m : List (String × DetEntry)} {name : String}
    {e : DetEntry} (h : assocFind m name = some e) (l : List (String × DetEntry)) :
    assocFind (m ++ l) name = some e := by
  induction m with
  | nil => simp [assocFind] at h
  | cons p r ih =>
    rw [List.cons_append]
    simp only [assocFind] at h ⊢
    by_cases hp : p.1 = name
    · rw [if_pos hp] at h ⊢
      exact h
    · rw [if_neg hp] at h ⊢
      exact ih h

theorem assocFind_assocSet_same {m : List (String × DetEntry)} {k : String}
    {v : DetEntry} (h : (assocFind m k).isSome) :
    assocFind (assocSet m k v) k = some v := by
  induction m with
  | nil => simp [assocFind] at h
  | cons p r ih =>
    simp only [assocSet]
    by_cases hp : p.1 = k
    · rw [if_pos hp]
      simp [assocFind]
    · rw [if_neg hp]
      simp only [assocFind, if_neg hp]
      apply ih
      simpa [assocFind, if_neg hp] using h

theorem assocFind_assocSet_other {m : List (String × DetEntry)} {k name : String}
    {v : DetEntry} (h : name ≠ k) :
    assocFind (assocSet m k v) name = assocFind m name := by
  induction m with
  | nil => rfl
  | cons p r ih =>
    simp only [assocSet]
    by_cases hp : p.1 = k
    · rw [if_pos hp]
      simp only [assocFind]
      rw [if_neg (fun he => h (he.symm)), if_neg (fun he => h ((hp.symm.trans he).symm))]
    · rw [if_neg hp]
      simp only [assocFind]
      by_cases hn : p.1 = name
      · rw [if_pos hn, if_pos hn]
      · rw [if_neg hn, if_neg hn]
        exact ih

theorem assocFind_eq_none_iff {m : List (String × DetEntry)} {k : String} :
    assocFind m k = none ↔ k ∉ m.map Prod.fst := by
  induction m with
  | nil => simp [assocFind]
  | cons p r ih =>
    simp only [assocFind, List.map_cons, List.mem_cons]
    by_cases hp : p.1 = k
    · rw [if_pos hp]
      simp [hp]
    · rw [if_neg hp]
      rw [ih]
      constructor
      · intro h
        rintro (he | hm)
        · exact hp he.symm
        · exact h hm
      · intro h hm
        exact h (Or.inr hm)

theorem keys_assocSet {m : List (String × DetEntry)} {k : String} {v : DetEntry} :
    (assocSet m k v).map Prod.fst = m.map Prod.fst := by
  induction m with
  | nil => rfl
  | cons p r ih =>
    simp only [assocSet]
    by_cases hp : p.1 = k
    · rw [if_pos hp]
      simp [hp]
    · rw [if_neg hp]
      simp [ih]

theorem bestStep_some (e : DetEntry) (b : RawBox) :
    bestStep (some e) b = some (if b.conf > e.conf then ⟨b.bbox, b.conf⟩ else e) := by
  show (if b.conf > e.conf then some ⟨b.bbox, b.conf⟩ else some e) = _
  split <;> rfl

theorem insertDet_find (m : List (String × DetEntry)) (b : RawBox) (name : String) :
    assocFind (insertDet m b) name =
      if b.cls = name then bestStep (assocFind m name) b else assocFind m name := by
  unfold insertDet
  cases hf : assocFind m b.cls with
  | none =>
    by_cases hc : b.cls = name
    · subst hc
      rw [if_pos rfl, assocFind_append_none hf]
      simp [assocFind, bestStep, hf]
    · rw [if_neg hc]
      cases hfn : assocFind m name with
      | none =>
        rw [assocFind_append_none hfn]
        simp [assocFind, hc]
      | some e => exact assocFind_append_some hfn _
  | some old =>
    dsimp only
    by_cases hgt : b.conf > old.conf
    · rw [if_pos hgt]
      by_cases hc : b.cls = name
      · subst hc
        rw [if_pos rfl, assocFind_assocSet_same (by simp [hf]), hf, bestStep_some,
          if_pos hgt]
      · rw [if_neg hc, assocFind_assocSet_other (fun he => hc he.symm)]
    · rw [if_neg hgt]
      by_cases hc : b.cls = name
      · subst hc
        rw [if_pos rfl, hf, bestStep_some, if_neg hgt]
      · rw [if_neg hc]

theorem detect_foldl_find (boxes : List RawBox) :
    ∀ (m : List (String × DetEntry)) (name : String),
      assocFind (boxes.foldl insertDet m) name =
        (boxes.filter (fun b => b.cls == name)).foldl bestStep (assocFind m name) := by
  induction boxes with
  | nil => intro m name; rfl
  | cons b bs ih =>
    intro m name
    rw [List.foldl_cons, ih, insertDet_find]
    by_cases hc : b.cls = name
    · rw [if_pos hc, List.filter_cons_of_pos (by simp [hc]), List.foldl_cons]
    · rw [if_neg hc, List.filter_cons_of_neg (by simp [hc])]

theorem foldl_bestStep_some (l : List RawBox) :
    ∀ e : DetEntry, ∃ e2, l.foldl bestStep (some e) = some e2 := by
  induction l with
  | nil => intro e; exact ⟨e, rfl⟩
  | cons b t ih =>
    intro e
    rw [List.foldl_cons, bestStep_some]
    exact ih _

theorem foldl_bestStep_spec (l : List RawBox) :
    ∀ (cur : Option DetEntry) (e : DetEntry),
      l.foldl bestStep cur = some e →
      ((cur = some e ∨ ∃ b ∈ l, e = ⟨b.bbox, b.conf⟩) ∧
       (∀ b ∈ l, b.conf ≤ e.conf) ∧
       (∀ e0, cur = some e0 → e0.conf ≤ e.conf)) := by
  induction l with
  | nil =>
    intro cur e h
    simp only [List.foldl_nil] at h
    refine ⟨Or.inl h, by simp, ?_⟩
    intro e0 h0
    rw [h0] at h
    rw [Option.some.inj h]
  | cons b t ih =>
    intro cur e h
    rw [List.foldl_cons] at h
    cases cur with
    | none =>
      rw [show bestStep none b = some ⟨b.bbox, b.conf⟩ from rfl] at h
      obtain ⟨horig, hall, hmono⟩ := ih (some ⟨b.bbox, b.conf⟩) e h
      refine ⟨?_, ?_, ?_⟩
      · right
        rcases horig with h1 | ⟨b2, hb2, rfl⟩
        · exact ⟨b, by simp, (Option.some.inj h1).symm⟩
        · exact ⟨b2, List.mem_cons_of_mem b hb2, rfl⟩
      · intro b2 hb2
        rcases List.mem_cons.mp hb2 with rfl | hb2
        · exact hmono ⟨b2.bbox, b2.conf⟩ rfl
        · exact hall b2 hb2
      · intro e0 h0
        exact absurd h0 (by simp)
    | some e0 =>
      rw [bestStep_some] at h
      by_cases hgt : b.conf > e0.conf
      · rw [if_pos hgt] at h
        obtain ⟨horig, hall, hmono⟩ := ih (some ⟨b.bbox, b.conf⟩) e h
        refine ⟨?_, ?_, ?_⟩
        · right
          rcases horig with h1 | ⟨b2, hb2, rfl⟩
          · exact ⟨b, by simp, (Option.some.inj h1).symm⟩
          · exact ⟨b2, List.mem_cons_of_mem b hb2, rfl⟩
        · intro b2 hb2
          rcases List.mem_cons.mp hb2 with rfl | hb2
          · exact hmono ⟨b2.bbox, b2.conf⟩ rfl
          · exact hall b2 hb2
        · intro e1 h1
          rw [← Option.some.inj h1]
          exact le_trans (le_of_lt hgt) (hmono ⟨b.bbox, b.conf⟩ rfl)
      · rw [if_neg hgt] at h
        obtain ⟨horig, hall, hmono⟩ := ih (some e0) e h
        refine ⟨?_, ?_, ?_⟩
        · rcases horig with h1 | ⟨b2, hb2, rfl⟩
          · exact Or.inl h1
          · exact Or.inr ⟨b2, List.mem_cons_of_mem b hb2, rfl⟩
        · intro b2 hb2
          rcases List.mem_cons.mp hb2 with rfl | hb2
          · exact le_trans (not_lt.mp hgt) (hmono e0 rfl)
          · exact hall b2 hb2
        · exact hmono

theorem detect_find_char (boxes : List RawBox) (name : String) :
    assocFind (detect_fields boxes) name =
      (boxes.filter (fun b => b.cls == name)).foldl bestStep none := by
  unfold detect_fields
  rw [detect_foldl_find]
  rfl

theorem detect_find_exists (boxes : List RawBox) (name : String) :
    (∃ b ∈ boxes, b.cls = name) ↔ (assocFind (detect_fields boxes) name).isSome := by
  rw [detect_find_char]
  cases hfil : boxes.filter (fun b => b.cls == name) with
  | nil =>
    simp only [List.foldl_nil]
    constructor
    · rintro ⟨b, hb, hcls⟩
      have hbm : b ∈ boxes.filter (fun b => b.cls == name) :=
        List.mem_filter.mpr ⟨hb, by simp [hcls]⟩
      rw [hfil] at hbm
      simp at hbm
    · intro h
      simp at h
  | cons f rest =>
    constructor
    · intro _
      rw [List.foldl_cons, show bestStep none f = some ⟨f.bbox, f.conf⟩ from rfl]
      obtain ⟨e2, he2⟩ := foldl_bestStep_some rest ⟨f.bbox, f.conf⟩
      rw [he2]
      rfl
    · intro _
      have hf : f ∈ boxes.filter (fun b => b.cls == name) := by
        rw [hfil]
        simp
      have hm := List.mem_filter.mp hf
      exact ⟨f, hm.1, by simpa using hm.2⟩

theorem detect_keys_nodup (boxes : List RawBox) :
    ((detect_fields boxes).map Prod.fst).Nodup := by
  suffices h : ∀ (bs : List RawBox) (m : List (String × DetEntry)),
      (m.map Prod.fst).Nodup → ((bs.foldl insertDet m).map Prod.fst).Nodup by
    exact h boxes [] (by simp)
  intro bs
  induction bs with
  | nil => intro m hm; exact hm
  | cons b t ih =>
    intro m hm
    rw [List.foldl_cons]
    apply ih
    unfold insertDet
    cases hf : assocFind m b.cls with
    | none =>
      rw [List.map_append]
      refine List.Nodup.append hm (by simp) ?_
      intro a ha
      simp only [List.map_cons, List.map_nil, List.mem_singleton]
      rintro rfl
      exact (assocFind_eq_none_iff.mp hf) ha
    | some old =>
      dsimp only
      by_cases hgt : b.conf > old.conf
      · rw [if_pos hgt, keys_assocSet]
        exact hm
      · rw [if_neg hgt]
        exact hm

/-- C10: the detection fold keeps, per class name, exactly one entry, and
that entry comes from a detection of that class with maximal confidence
among all detections of the class. -/
theorem c10_detect_keeps_best (boxes : List RawBox) (name : String) :
    ((detect_fields boxes).map Prod.fst).Nodup ∧
    ((∃ b ∈ boxes, b.cls = name) ↔ (assocFind (detect_fields boxes) name).isSome) ∧
    (∀ e, assocFind (detect_fields boxes) name = some e →
      (∃ b ∈ boxes, b.cls = name ∧ e.bbox = b.bbox ∧ e.conf = b.conf) ∧
      ∀ b ∈ boxes, b.cls = name → b.conf ≤ e.conf) := by
  refine ⟨detect_keys_nodup boxes, detect_find_exists boxes name, ?_⟩
  intro e he
  rw [detect_find_char] at he
  obtain ⟨horig, hall, -⟩ := foldl_bestStep_spec _ none e he
  constructor
  · rcases horig with h1 | ⟨b, hb, rfl⟩
    · exact absurd h1 (by simp)
    · have hm := List.mem_filter.mp hb
      exact ⟨b, hm.1, by simpa using hm.2, rfl, rfl⟩
  · intro b hb hcls
    exact hall b (List.mem_filter.mpr ⟨hb, by simp [hcls]⟩)

/-- Witness for C10: two detections of the same class keep the
higher-confidence one. -/
theorem c10_detect_keeps_best_witness :
    assocFind (detect_fields
      [⟨"photo", [0, 0, 1, 1], 3⟩, ⟨"photo", [2, 2, 3, 3], 7⟩]) "photo" =
      some ⟨[2, 2, 3, 3], 7⟩ ∧
    ((∃ b ∈ [(⟨"photo", [0, 0, 1, 1], 3⟩ : RawBox), ⟨"photo", [2, 2, 3, 3], 7⟩],
        b.cls = "photo" ∧ (⟨[2, 2, 3, 3], 7⟩ : DetEntry).bbox = b.bbox ∧
        (⟨[2, 2, 3, 3], 7⟩ : DetEntry).conf = b.conf) ∧
      ∀ b ∈ [(⟨"photo", [0, 0, 1, 1], 3⟩ : RawBox), ⟨"photo", [2, 2, 3, 3], 7⟩],
        b.cls = "photo" → b.conf ≤ (⟨[2, 2, 3, 3], 7⟩ : DetEntry).conf) :=
  ⟨by decide,
    (c10_detect_keeps_best
      [⟨"photo", [0, 0, 1, 1], 3⟩, ⟨"photo", [2, 2, 3, 3], 7⟩] "photo").2.2
      ⟨[2, 2, 3, 3], 7⟩ (by decide)⟩

/-- Witness for C6: `2020-01-01` → `2025-01-01` passes (spec §8 example). -/
theorem c6_date_consistency_correct_witness :
    pyYMD "2020-01-01" = some (2020, 1, 1) ∧
    pyYMD "2025-01-01" = some (2025, 1, 1) ∧
    validate_date_consistency "2020-01-01" "2025-01-01" = (true, none) :=
  ⟨by decide, by decide,
    ((c6_date_consistency_correct "2020-01-01" "2025-01-01" (2020, 1, 1) (2025, 1, 1)
      (by decide) (by decide) (by decide) (by decide)).2.1).mpr (by decide)⟩

end Scanner
